import Mathlib

/-! Invigilens: relay hub, alert API and dashboard filter.

A shallow embedding of

* `backend/index.js`              the socket.io relay hub,
* `backend/models/Alert.js`       the mongoose schema of an alert,
* `backend/routes/alertRoutes.js` the four handlers of `/api/alerts`,
* `frontend/js/app.js`            `loadDashboardFeed` and `clearActivity`,

followed by the properties established about them.

The handlers are a few lines each; what they do is decided by the library
calls they make (socket.io's `emit`, mongoose's `create`, `find`, `findById`,
`save`, `deleteMany`).  Those calls are modelled by their documented behaviour
and every such place is marked in the doc comment of the definition.
-/

namespace Invigilens

/-! ## Realtime hub (`backend/index.js`, lines 42-67) -/

namespace Hub

/-- The handle socket.io gives a connection (`socket.id`). -/
abbrev SocketId := Nat

/-- A message payload.  The hub never looks inside it. -/
abbrev Payload := String

/-- The registry socket.io keeps for the default namespace (`io.sockets.sockets`,
a `Map` keyed by socket id): the ids of the connected sockets in the order they
connected.  The source never touches it; it is read by `emit` only. -/
structure Registry where
  sockets : List SocketId
  deriving DecidableEq, Repr

/-- The registry of a freshly started server. -/
def Registry.empty : Registry := ⟨[]⟩

/-- The transport adds a socket on connection (`Map.set`: an id that is already
there keeps its place). -/
def connect (r : Registry) (c : SocketId) : Registry :=
  if c ∈ r.sockets then r else ⟨r.sockets ++ [c]⟩

/-- The transport removes a socket when it disconnects (`Map.delete`). -/
def disconnect (r : Registry) (c : SocketId) : Registry :=
  ⟨r.sockets.filter (fun p => p ≠ c)⟩

/-- The two transport events that change the registry. -/
inductive Transport where
  | connect (c : SocketId)
  | disconnect (c : SocketId)
  deriving DecidableEq, Repr

/-- One transport event. -/
def step (r : Registry) : Transport → Registry
  | .connect c => connect r c
  | .disconnect c => disconnect r c

/-- The registry after a sequence of transport events. -/
def run (r : Registry) (evs : List Transport) : Registry :=
  evs.foldl step r

/-- An event handed to one recipient. -/
structure Delivery where
  recipient : SocketId
  event : String
  data : Payload
  deriving DecidableEq, Repr

/-- `io.emit(ev, data)`: every socket of the namespace. -/
def ioEmit (r : Registry) (ev : String) (data : Payload) : List Delivery :=
  r.sockets.map (fun p => ⟨p, ev, data⟩)

/-- `socket.broadcast.emit(ev, data)`: every socket of the namespace except
`socket` itself. -/
def broadcastEmit (r : Registry) (c : SocketId) (ev : String) (data : Payload) :
    List Delivery :=
  (r.sockets.filter (fun p => p ≠ c)).map (fun p => ⟨p, ev, data⟩)

/-- What a handler registered with `socket.on` does with an inbound message
named `name` from socket `c`.  A name without a handler is ignored. -/
def onMessage (r : Registry) (c : SocketId) (name : String) (data : Payload) :
    List Delivery :=
  if name = "video_frame" then broadcastEmit r c "live_stream" data
  else if name = "set_monitoring" then ioEmit r "set_monitoring" data
  else if name = "camera_control" then ioEmit r "camera_control" data
  else []

/-- The recipients of a list of deliveries, in order. -/
def recipients (ds : List Delivery) : List SocketId :=
  ds.map (fun d => d.recipient)

end Hub

/-! ## Alert schema (`backend/models/Alert.js`) -/

namespace Api

/-- The value of a key of a JSON request body as JavaScript reads it: the key
is missing (`undefined`), it is `null`, or it holds a value.  The fields of the
schema are modelled at their declared type (a string where the schema says
`String`, a number where it says `Number`); values of another JSON type, which
mongoose would first cast, are outside the model. -/
inductive Field (α : Type) where
  | absent
  | null
  | val (a : α)
  deriving DecidableEq, Repr

/-- A JSON number, kept as the decimal literal `mant * 10 ^ exp` it was written
as.  The program never computes with it. -/
structure Num where
  mant : Int
  exp : Int
  deriving DecidableEq, Repr

/-- A document identifier (`_id`, a 12-byte ObjectId) as the number its
24 hexadecimal digits denote. -/
abbrev ObjectId := Nat

/-- A stored alert document.  `timestamp` is in milliseconds since the epoch. -/
structure Alert where
  id : ObjectId
  studentId : String
  violationType : String
  confidence : Num
  timestamp : Nat
  evidencePath : Field String
  status : String
  deriving DecidableEq, Repr

/-- The collection, in insertion order. -/
abbrev Store := List Alert

/-- `enum` of the path `violationType` (Alert.js, line 12). -/
def violationTypes : List String :=
  ["Giving object", "Giving signal", "Looking Friend", "Moving", "Normal", "Using Phone"]

/-- `enum` of the path `status` (Alert.js, line 28). -/
def statuses : List String := ["pending", "verified", "rejected"]

/-- `default` of the path `studentId` (Alert.js, line 7). -/
def defaultStudentId : String := "Unknown"

/-- `default` of the path `status` (Alert.js, line 29). -/
def defaultStatus : String := "pending"

/-- What the request is served with: the clock reading `Date.now()` gives during
the call, the identifier `new ObjectId()` gives a new document, and whether the
database answers. -/
structure Env where
  now : Nat
  newId : ObjectId
  storeUp : Bool
  deriving DecidableEq, Repr

/-- The errors a model call can throw. -/
inductive Err where
  | validation (paths : List String)
  | cast (path : String)
  | store (reason : String)
  deriving DecidableEq, Repr

/-- The text of `error.message` (mongoose's wording abbreviated). -/
def Err.message : Err → String
  | .validation paths => "Alert validation failed: " ++ ", ".intercalate paths
  | .cast path => "Cast to ObjectId failed at path " ++ path
  | .store reason => reason

/-- JavaScript truthiness of a string: the empty string is falsy. -/
def truthy (s : String) : Bool := s ≠ ""

/-- The JavaScript expression `x || d` for a string-valued field `x`:
`undefined`, `null` and the empty string give `d`. -/
def orElse : Field String → String → String
  | .val s, d => if truthy s then s else d
  | _, d => d

/-- A path of type `String` after mongoose applies `default`: the default is
taken only when the value is `undefined`; `null` stays `null` (`none`). -/
def withDefault (d : String) : Field String → Option String
  | .absent => some d
  | .null => none
  | .val s => some s

/-- A path without a default: `undefined` and `null` are both "no value". -/
def Field.toOption {α : Type} : Field α → Option α
  | .val a => some a
  | _ => none

/-- The `required` validator of a `String` path: a string of non-zero length. -/
def requiredString : Option String → Bool
  | some s => s ≠ ""
  | none => false

/-- The `required` validator of a `Number` path: a number is there. -/
def requiredNumber : Option Num → Bool
  | some _ => true
  | none => false

/-- The `enum` validator: it is not run on a missing value. -/
def enumValid (allowed : List String) : Option String → Bool
  | some s => allowed.contains s
  | none => true

/-- Schema validation of a document (the `validate` step `create` and `save`
run before they write): the paths that fail, in schema order. -/
def validate (studentId violationType : Option String) (confidence : Option Num)
    (status : Option String) : List String :=
  (if requiredString studentId then [] else ["studentId"]) ++
  (if requiredString violationType && enumValid violationTypes violationType
    then [] else ["violationType"]) ++
  (if requiredNumber confidence then [] else ["confidence"]) ++
  (if enumValid statuses status then [] else ["status"])

/-- The value of one hexadecimal digit. -/
def hexDigit (c : Char) : Option Nat :=
  if '0' ≤ c ∧ c ≤ '9' then some (c.toNat - '0'.toNat)
  else if 'a' ≤ c ∧ c ≤ 'f' then some (c.toNat - 'a'.toNat + 10)
  else if 'A' ≤ c ∧ c ≤ 'F' then some (c.toNat - 'A'.toNat + 10)
  else none

/-- The number a string of hexadecimal digits denotes. -/
def hexValue : List Char → Nat → Option Nat
  | [], acc => some acc
  | c :: cs, acc =>
    match hexDigit c with
    | some d => hexValue cs (acc * 16 + d)
    | none => none

/-- Mongoose's cast of a string to an ObjectId: a string of 24 hexadecimal
digits; anything else is a `CastError` (`none`).  Drivers before bson 5 also
took any string of 12 characters; the properties below do not use such ids. -/
def castObjectId (s : String) : Option ObjectId :=
  if s.length = 24 then hexValue s.toList 0 else none

/-- The fields the POST handler hands to `Alert.create`. -/
structure NewAlert where
  studentId : Field String
  violationType : Field String
  confidence : Field Num
  evidencePath : Field String
  deriving DecidableEq, Repr

/-- `Alert.create(fields)`: apply the defaults, validate, insert.  The insert
fails when the database does not answer or already holds the identifier (`_id`
is unique). -/
def Alert.create (env : Env) (st : Store) (f : NewAlert) : Except Err (Alert × Store) :=
  let studentId := withDefault defaultStudentId f.studentId
  let violationType := f.violationType.toOption
  let confidence := f.confidence.toOption
  match studentId, violationType, confidence,
      validate studentId violationType confidence (some defaultStatus) with
  | some sid, some vt, some conf, [] =>
    if !env.storeUp then .error (.store "database unavailable")
    else if st.any (fun d => d.id = env.newId) then .error (.store "duplicate key")
    else
      let alert : Alert := ⟨env.newId, sid, vt, conf, env.now, f.evidencePath, defaultStatus⟩
      .ok (alert, st ++ [alert])
  | _, _, _, paths => .error (.validation paths)

/-- The order a sort on `timestamp: -1` asks for. -/
def newerFirst (a b : Alert) : Prop := b.timestamp ≤ a.timestamp

instance : DecidableRel newerFirst := fun a b => Nat.decLe b.timestamp a.timestamp

/-- `Alert.find(query).sort(...)` on `timestamp: -1`: the documents whose status
equals the one asked for (all of them for the empty query), newest first.
Documents with equal timestamps keep their stored order. -/
def Alert.find (env : Env) (st : Store) (status : Option String) : Except Err (List Alert) :=
  if !env.storeUp then .error (.store "database unavailable")
  else
    match status with
    | none => .ok (st.insertionSort newerFirst)
    | some s => .ok ((st.filter (fun d => d.status = s)).insertionSort newerFirst)

/-- `Alert.findById(id)`: the identifier is cast first; then the document with
that `_id`, or `null`. -/
def Alert.findById (env : Env) (st : Store) (id : String) : Except Err (Option Alert) :=
  match castObjectId id with
  | none => .error (.cast "_id")
  | some oid =>
    if !env.storeUp then .error (.store "database unavailable")
    else .ok (st.find? (fun d => d.id = oid))

/-- The write `save` sends for a document whose only modified path is `status`:
that path of the document with the given `_id`. -/
def setStatus : Store → ObjectId → String → Store
  | [], _, _ => []
  | d :: ds, oid, s =>
    if d.id = oid then { d with status := s } :: ds else d :: setStatus ds oid s

/-- What a status update may change: `new` has every path of `old` but `status`,
and is `old` itself unless `old` is the document identified by `oid`. -/
def sameButStatus (oid : Option ObjectId) (old new : Alert) : Prop :=
  new.id = old.id ∧ new.studentId = old.studentId ∧ new.violationType = old.violationType ∧
  new.confidence = old.confidence ∧ new.timestamp = old.timestamp ∧
  new.evidencePath = old.evidencePath ∧ (oid ≠ some old.id → new = old)

/-- `alert.save()` of a document read from the store whose `status` was
assigned: validate the whole document, then write the modified path. -/
def Alert.save (env : Env) (st : Store) (a : Alert) : Except Err (Alert × Store) :=
  match validate (some a.studentId) (some a.violationType) (some a.confidence)
      (some a.status) with
  | [] =>
    if !env.storeUp then .error (.store "database unavailable")
    else .ok (a, setStatus st a.id a.status)
  | paths => .error (.validation paths)

/-- A stored document passes schema validation.  Every document `create` or
`save` wrote does. -/
def Alert.conforms (a : Alert) : Bool :=
  (validate (some a.studentId) (some a.violationType) (some a.confidence)
    (some a.status)).isEmpty

/-- `Alert.deleteMany` with the empty filter: every document; the count removed. -/
def Alert.deleteMany (env : Env) (st : Store) : Except Err (Nat × Store) :=
  if !env.storeUp then .error (.store "database unavailable")
  else .ok (st.length, [])

/-! ## Alert API (`backend/routes/alertRoutes.js`) -/

/-- A parsed JSON request body (`req.body`).  `status` and `timestamp` stand for
fields a client may send besides the four a creation reads. -/
structure Body where
  studentId : Field String
  violationType : Field String
  confidence : Field Num
  evidencePath : Field String
  status : Field String
  timestamp : Field Nat
  deriving DecidableEq, Repr

/-- The query string (`req.query`): the parameters a client sends. -/
structure Query where
  status : Option String
  limit : Option String
  deriving DecidableEq, Repr

/-- The JSON a handler answers with. -/
inductive Reply where
  | alert (a : Alert)
  | alerts (l : List Alert)
  | message (text : String)
  deriving DecidableEq, Repr

/-- An HTTP response. -/
structure Response where
  status : Nat
  body : Reply
  deriving DecidableEq, Repr

/-- The alerts a response lists (none when it carries something else). -/
def Response.alerts (r : Response) : List Alert :=
  match r.body with
  | .alerts l => l
  | _ => []

/-- `router.post('/')` (lines 11-27). -/
def postAlert (env : Env) (st : Store) (body : Body) : Response × Store :=
  match Alert.create env st
      ⟨body.studentId, body.violationType, body.confidence, body.evidencePath⟩ with
  | .ok (alert, st') => (⟨201, .alert alert⟩, st')
  | .error e => (⟨400, .message e.message⟩, st)

/-- The mongoose query the GET handler builds: `if (status) query.status = status`. -/
def queryFilter (query : Query) : Option String :=
  match query.status with
  | some s => if truthy s then some s else none
  | none => none

/-- `router.get('/')` (lines 32-43). -/
def getAlerts (env : Env) (st : Store) (query : Query) : Response × Store :=
  match Alert.find env st (queryFilter query) with
  | .ok alerts => (⟨200, .alerts alerts⟩, st)
  | .error e => (⟨500, .message e.message⟩, st)

/-- `router.put('/:id')` (lines 48-63). -/
def putAlert (env : Env) (st : Store) (id : String) (body : Body) : Response × Store :=
  match Alert.findById env st id with
  | .ok (some alert) =>
    match Alert.save env st { alert with status := orElse body.status alert.status } with
    | .ok (updatedAlert, st') => (⟨200, .alert updatedAlert⟩, st')
    | .error e => (⟨500, .message e.message⟩, st)
  | .ok none => (⟨404, .message "Alert not found"⟩, st)
  | .error e => (⟨500, .message e.message⟩, st)

/-- `router.delete('/')` (lines 67-75). -/
def deleteAlerts (env : Env) (st : Store) : Response × Store :=
  match Alert.deleteMany env st with
  | .ok (_, st') => (⟨200, .message "All alerts cleared"⟩, st')
  | .error e => (⟨500, .message e.message⟩, st)

end Api

/-! ## Dashboard feed (`frontend/js/app.js`) -/

namespace Dashboard

/-- The white space `parseInt` skips (ECMAScript WhiteSpace and LineTerminator). -/
def isWhiteSpace (c : Char) : Bool :=
  [0x09, 0x0A, 0x0B, 0x0C, 0x0D, 0x20, 0xA0, 0x1680, 0x2028, 0x2029, 0x202F, 0x205F,
    0x3000, 0xFEFF].contains c.toNat || (0x2000 ≤ c.toNat && c.toNat ≤ 0x200A)

/-- The value of a character as a digit of the given radix. -/
def digitValue (radix : Nat) (c : Char) : Option Nat :=
  let v : Option Nat :=
    if '0' ≤ c ∧ c ≤ '9' then some (c.toNat - 48)
    else if 'a' ≤ c ∧ c ≤ 'z' then some (c.toNat - 97 + 10)
    else if 'A' ≤ c ∧ c ≤ 'Z' then some (c.toNat - 65 + 10)
    else none
  match v with
  | some d => if d < radix then some d else none
  | none => none

/-- The digits of the longest prefix that consists of digits of the radix. -/
def digitsPrefix (radix : Nat) : List Char → List Nat
  | [] => []
  | c :: cs =>
    match digitValue radix c with
    | some d => d :: digitsPrefix radix cs
    | none => []

/-- A leading sign: whether it is a minus, and the rest. -/
def stripSign : List Char → Bool × List Char
  | '-' :: r => (true, r)
  | '+' :: r => (false, r)
  | cs => (false, cs)

/-- A leading `0x` or `0X` selects radix 16. -/
def stripHexPrefix : List Char → Nat × List Char
  | '0' :: 'x' :: r => (16, r)
  | '0' :: 'X' :: r => (16, r)
  | cs => (10, cs)

/-- `parseInt(s)` with no radix argument; `none` is `NaN`.  The result is the
exact integer (JavaScript rounds it to a double beyond 2^53). -/
def parseInt (s : String) : Option Int :=
  let signed := stripSign (s.toList.dropWhile isWhiteSpace)
  let based := stripHexPrefix signed.2
  match digitsPrefix based.1 based.2 with
  | [] => none
  | ds =>
    let n : Nat := ds.foldl (fun acc d => acc * based.1 + d) 0
    some (if signed.1 then -(n : Int) else (n : Int))

/-- The browser's `localStorage`, as far as the dashboard uses it: the string
under the key `lastClearedTime`, `none` when `getItem` gives `null`. -/
structure LocalStorage where
  lastClearedTime : Option String
  deriving DecidableEq, Repr

/-- `clearActivity` (lines 188-207), its effect on `localStorage`:
`setItem('lastClearedTime', Date.now().toString())`. -/
def clearActivity (now : Nat) (_ls : LocalStorage) : LocalStorage :=
  ⟨some (toString now)⟩

/-- The predicate `loadDashboardFeed` filters with (lines 34-37).  The
`timestamp` of a fetched alert is the millisecond count `getTime()` gives for
it; a comparison with `NaN` is false. -/
def isVisible (lastCleared : Option String) (alert : Api.Alert) : Bool :=
  match lastCleared with
  | none => true
  | some s =>
    if !Api.truthy s then true
    else
      match parseInt s with
      | some n => decide (n < (alert.timestamp : Int))
      | none => false

/-- `loadDashboardFeed` (lines 27-37): the alerts it renders out of the fetched
list `data`. -/
def loadDashboardFeed (ls : LocalStorage) (data : List Api.Alert) : List Api.Alert :=
  data.filter (isVisible ls.lastClearedTime)

end Dashboard

/-! ## Properties of the hub -/


namespace Hub

theorem connect_nodup (r : Registry) (c : SocketId) (h : r.sockets.Nodup) :
    (connect r c).sockets.Nodup := by
  unfold connect
  split
  · exact h
  · rename_i hc
    refine List.Nodup.append h (List.nodup_singleton c) ?_
    intro x hx hx1
    rw [List.mem_singleton] at hx1
    exact hc (hx1 ▸ hx)

theorem disconnect_nodup (r : Registry) (c : SocketId) (h : r.sockets.Nodup) :
    (disconnect r c).sockets.Nodup :=
  h.filter _

theorem run_nodup (evs : List Transport) :
    ∀ r : Registry, r.sockets.Nodup → (run r evs).sockets.Nodup := by
  induction evs with
  | nil => intro r h; exact h
  | cons e es ih =>
    intro r h
    have hs : (step r e).sockets.Nodup := by
      cases e with
      | connect c => exact connect_nodup r c h
      | disconnect c => exact disconnect_nodup r c h
    exact ih _ hs

theorem reachable_nodup (evs : List Transport) :
    (run Registry.empty evs).sockets.Nodup :=
  run_nodup evs _ List.nodup_nil

theorem recipients_broadcastEmit (r : Registry) (c : SocketId) (ev : String) (d : Payload) :
    recipients (broadcastEmit r c ev d) = r.sockets.filter (fun p => p ≠ c) := by
  simp [recipients, broadcastEmit, Function.comp_def]

theorem recipients_ioEmit (r : Registry) (ev : String) (d : Payload) :
    recipients (ioEmit r ev d) = r.sockets := by
  simp [recipients, ioEmit, Function.comp_def]

theorem mem_disconnect (r : Registry) (b p : SocketId) :
    p ∈ (disconnect r b).sockets ↔ p ∈ r.sockets ∧ p ≠ b := by
  simp [disconnect]

/-- C1 (frame relay).  In every registry reached from the empty one by connects
and disconnects, a `video_frame` with payload `d` from socket `c` produces only
`live_stream` events carrying `d` unchanged; a socket receives one exactly when
it is connected and is not `c`, and receives it once; `c` receives nothing; and
after a further disconnect of `b` the recipients are the sockets connected
before, without `b` and without `c`. -/
theorem frame_relay_to_all_but_sender (evs : List Transport) (c : SocketId) (d : Payload) :
    (∀ x ∈ onMessage (run Registry.empty evs) c "video_frame" d,
        x.event = "live_stream" ∧ x.data = d) ∧
    (∀ p, p ∈ recipients (onMessage (run Registry.empty evs) c "video_frame" d) ↔
        p ∈ (run Registry.empty evs).sockets ∧ p ≠ c) ∧
    (recipients (onMessage (run Registry.empty evs) c "video_frame" d)).Nodup ∧
    c ∉ recipients (onMessage (run Registry.empty evs) c "video_frame" d) ∧
    (∀ b p, p ∈ recipients
          (onMessage (run Registry.empty (evs ++ [Transport.disconnect b])) c "video_frame" d) ↔
        p ∈ (run Registry.empty evs).sockets ∧ p ≠ b ∧ p ≠ c) := by
  have hmsg : ∀ r : Registry, onMessage r c "video_frame" d = broadcastEmit r c "live_stream" d := by
    intro r; simp [onMessage]
  refine ⟨?_, ?_, ?_, ?_, ?_⟩
  · intro x hx
    rw [hmsg] at hx
    simp only [broadcastEmit, List.mem_map] at hx
    obtain ⟨p, _, rfl⟩ := hx
    exact ⟨rfl, rfl⟩
  · intro p
    rw [hmsg, recipients_broadcastEmit]
    simp
  · rw [hmsg, recipients_broadcastEmit]
    exact (reachable_nodup evs).filter _
  · rw [hmsg, recipients_broadcastEmit]
    simp
  · intro b p
    rw [hmsg, recipients_broadcastEmit]
    have hrun : run Registry.empty (evs ++ [Transport.disconnect b]) =
        disconnect (run Registry.empty evs) b := by
      simp [run, List.foldl_append, step]
    rw [hrun]
    simp only [List.mem_filter, mem_disconnect, decide_eq_true_eq]
    tauto

/-- Witness of C1: sockets 1, 2 and 3 connect, 2 disconnects, and 1 sends a
frame: socket 1 is not among the recipients. -/
theorem frame_relay_to_all_but_sender_witness :
    (1 : SocketId) ∉ recipients (onMessage
      (run Registry.empty [Transport.connect 1, Transport.connect 2, Transport.connect 3,
        Transport.disconnect 2]) 1 "video_frame" "frame") :=
  (frame_relay_to_all_but_sender [Transport.connect 1, Transport.connect 2,
    Transport.connect 3, Transport.disconnect 2] 1 "frame").2.2.2.1

/-- C2 (inclusive control broadcast).  In every registry reached from the empty
one, a `set_monitoring` or `camera_control` message with payload `d` from a
connected socket `c` produces only events of the same name carrying `d`
unchanged; a socket receives one exactly when it is connected, and receives it
once; `c` is among the recipients; and the two kinds reach the same sockets. -/
theorem control_broadcast_to_all (evs : List Transport) (c : SocketId) (d : Payload)
    (name : String) (hname : name = "set_monitoring" ∨ name = "camera_control")
    (hc : c ∈ (run Registry.empty evs).sockets) :
    (∀ x ∈ onMessage (run Registry.empty evs) c name d, x.event = name ∧ x.data = d) ∧
    (∀ p, p ∈ recipients (onMessage (run Registry.empty evs) c name d) ↔
        p ∈ (run Registry.empty evs).sockets) ∧
    (recipients (onMessage (run Registry.empty evs) c name d)).Nodup ∧
    c ∈ recipients (onMessage (run Registry.empty evs) c name d) ∧
    recipients (onMessage (run Registry.empty evs) c "set_monitoring" d) =
      recipients (onMessage (run Registry.empty evs) c "camera_control" d) := by
  have hmsg : ∀ r : Registry, onMessage r c name d = ioEmit r name d := by
    intro r
    rcases hname with h | h <;> subst h <;> simp [onMessage]
  have hmon : ∀ r : Registry, onMessage r c "set_monitoring" d = ioEmit r "set_monitoring" d := by
    intro r; simp [onMessage]
  have hcam : ∀ r : Registry, onMessage r c "camera_control" d = ioEmit r "camera_control" d := by
    intro r; simp [onMessage]
  refine ⟨?_, ?_, ?_, ?_, ?_⟩
  · intro x hx
    rw [hmsg] at hx
    simp only [ioEmit, List.mem_map] at hx
    obtain ⟨p, _, rfl⟩ := hx
    exact ⟨rfl, rfl⟩
  · intro p
    rw [hmsg, recipients_ioEmit]
  · rw [hmsg, recipients_ioEmit]
    exact reachable_nodup evs
  · rw [hmsg, recipients_ioEmit]
    exact hc
  · rw [hmon, hcam, recipients_ioEmit, recipients_ioEmit]

/-- Witness of C2: sockets 1, 2 and 3 connect and 1 sends `set_monitoring`. -/
theorem control_broadcast_to_all_witness :
    (1 : SocketId) ∈ recipients (onMessage
      (run Registry.empty [Transport.connect 1, Transport.connect 2, Transport.connect 3])
      1 "set_monitoring" "on") :=
  (control_broadcast_to_all [Transport.connect 1, Transport.connect 2, Transport.connect 3]
    1 "on" "set_monitoring" (Or.inl rfl) (by decide)).2.2.2.1

end Hub

/-! ## Properties of the dashboard filter -/

namespace Dashboard

theorem digitChar_facts (v : Nat) (hv : v < 10) :
    isWhiteSpace (Nat.digitChar v) = false ∧ digitValue 10 (Nat.digitChar v) = some v ∧
    (∀ r, stripSign (Nat.digitChar v :: r) = (false, Nat.digitChar v :: r)) ∧
    Nat.digitChar v ≠ 'x' ∧ Nat.digitChar v ≠ 'X' := by
  interval_cases v <;> refine ⟨by decide, by decide, fun r => rfl, by decide, by decide⟩

theorem stripHexPrefix_digits (v : Nat) (hv : v < 10) (vs : List Nat)
    (hvs : ∀ w ∈ vs, w < 10) :
    stripHexPrefix ((v :: vs).map Nat.digitChar) = (10, (v :: vs).map Nat.digitChar) := by
  cases vs with
  | nil => interval_cases v <;> rfl
  | cons w ws =>
    have hw : w < 10 := hvs w (List.mem_cons_self _ _)
    interval_cases v <;> interval_cases w <;> rfl

theorem digitsPrefix_digits (vs : List Nat) (hvs : ∀ w ∈ vs, w < 10) :
    digitsPrefix 10 (vs.map Nat.digitChar) = vs := by
  induction vs with
  | nil => rfl
  | cons v vs ih =>
    have hv : v < 10 := hvs v (List.mem_cons_self _ _)
    have hrest : ∀ w ∈ vs, w < 10 := fun w hw => hvs w (List.mem_cons_of_mem _ hw)
    simp only [List.map_cons, digitsPrefix, (digitChar_facts v hv).2.1, ih hrest]

theorem toDigitsCore_decimal : ∀ (fuel n : Nat) (ds : List Char), n < fuel →
    ∃ vs : List Nat, vs ≠ [] ∧ (∀ v ∈ vs, v < 10) ∧
      Nat.toDigitsCore 10 fuel n ds = vs.map Nat.digitChar ++ ds ∧
      vs.foldl (fun acc d => acc * 10 + d) 0 = n := by
  intro fuel
  induction fuel with
  | zero => intro n ds h; omega
  | succ fuel ih =>
    intro n ds h
    by_cases h0 : n / 10 = 0
    · refine ⟨[n % 10], by simp, ?_, ?_, ?_⟩
      · intro v hv
        rw [List.mem_singleton] at hv
        omega
      · simp [Nat.toDigitsCore, h0]
      · simp only [List.foldl_cons, List.foldl_nil]
        omega
    · have hlt : n / 10 < fuel := by omega
      obtain ⟨vs, hne, hdig, hcore, hval⟩ := ih (n / 10) (Nat.digitChar (n % 10) :: ds) hlt
      refine ⟨vs ++ [n % 10], by simp, ?_, ?_, ?_⟩
      · intro v hv
        rw [List.mem_append, List.mem_singleton] at hv
        rcases hv with hv | hv
        · exact hdig v hv
        · omega
      · simp [Nat.toDigitsCore, h0, hcore]
      · simp only [List.foldl_append, List.foldl_cons, List.foldl_nil, hval]
        omega

/-- The text `Date.now().toString()` writes is read back by `parseInt`. -/
theorem parseInt_toString (n : Nat) : parseInt (toString n) = some (n : Int) := by
  obtain ⟨vs, hne, hdig, hcore, hval⟩ := toDigitsCore_decimal (n + 1) n [] (Nat.lt_succ_self n)
  have hlist : (toString n).toList = vs.map Nat.digitChar := by
    show (Nat.repr n).toList = _
    simp [Nat.repr, Nat.toDigits, hcore, List.asString]
  cases vs with
  | nil => exact absurd rfl hne
  | cons v ws =>
    have hv : v < 10 := hdig v (List.mem_cons_self _ _)
    have hws : ∀ w ∈ ws, w < 10 := fun w hw => hdig w (List.mem_cons_of_mem _ hw)
    have hdrop : ((v :: ws).map Nat.digitChar).dropWhile isWhiteSpace =
        (v :: ws).map Nat.digitChar := by
      simp [List.dropWhile, (digitChar_facts v hv).1]
    have hsign : stripSign ((v :: ws).map Nat.digitChar) =
        (false, (v :: ws).map Nat.digitChar) := (digitChar_facts v hv).2.2.1 _
    have hpre := digitsPrefix_digits (v :: ws) hdig
    unfold parseInt
    rw [hlist, hdrop, hsign]
    simp only [stripHexPrefix_digits v hv ws hws, hpre, hval]
    simp

theorem toString_truthy (n : Nat) : Api.truthy (toString n) = true := by
  have h : toString n ≠ "" := by
    intro h
    have hp := parseInt_toString n
    rw [h] at hp
    have hnone : parseInt "" = none := by decide
    rw [hnone] at hp
    exact Option.noConfusion hp
  simp [Api.truthy, h]

theorem isVisible_cleared (t : Nat) (a : Api.Alert) :
    isVisible (some (toString t)) a = decide (t < a.timestamp) := by
  simp [isVisible, toString_truthy, parseInt_toString]

/-- C10 (dashboard recency filter).  With the `lastClearedTime` that
`clearActivity` stored at time `t`, `loadDashboardFeed` keeps, in fetched order,
the fetched alerts whose timestamp is greater than `t`: a fetched alert is
hidden if and only if its timestamp is `<= t`.  With nothing stored every
fetched alert is visible. -/
theorem dashboard_hides_up_to_lastCleared (data : List Api.Alert) (t : Nat)
    (ls : LocalStorage) :
    loadDashboardFeed (clearActivity t ls) data =
      data.filter (fun a => decide (t < a.timestamp)) ∧
    (∀ a ∈ data, a ∉ loadDashboardFeed (clearActivity t ls) data ↔ a.timestamp ≤ t) ∧
    (loadDashboardFeed (clearActivity t ls) data).Sublist data ∧
    loadDashboardFeed ⟨none⟩ data = data := by
  have hfun : isVisible (clearActivity t ls).lastClearedTime =
      fun a => decide (t < a.timestamp) := by
    funext a
    exact isVisible_cleared t a
  refine ⟨?_, ?_, ?_, ?_⟩
  · simp only [loadDashboardFeed, hfun]
  · intro a ha
    simp only [loadDashboardFeed, hfun, List.mem_filter, decide_eq_true_eq, ha, true_and]
    omega
  · exact List.filter_sublist _
  · simp [loadDashboardFeed, isVisible]

/-- Witness of C10: notifications cleared at time 5, alerts of times 7 and 3
fetched. -/
theorem dashboard_hides_up_to_lastCleared_witness :
    loadDashboardFeed (clearActivity 5 ⟨none⟩)
      [⟨1, "s1", "Moving", ⟨5, -1⟩, 7, .absent, "pending"⟩,
       ⟨2, "s2", "Normal", ⟨7, -1⟩, 3, .absent, "verified"⟩] =
    [(⟨1, "s1", "Moving", ⟨5, -1⟩, 7, .absent, "pending"⟩ : Api.Alert),
       ⟨2, "s2", "Normal", ⟨7, -1⟩, 3, .absent, "verified"⟩].filter
      (fun a => decide (5 < a.timestamp)) :=
  (dashboard_hides_up_to_lastCleared
    [⟨1, "s1", "Moving", ⟨5, -1⟩, 7, .absent, "pending"⟩,
     ⟨2, "s2", "Normal", ⟨7, -1⟩, 3, .absent, "verified"⟩] 5 ⟨none⟩).1

end Dashboard

/-! ## Properties of the alert API -/

namespace Api

theorem validate_nil_iff (sid vt : Option String) (c : Option Num) (s : Option String) :
    validate sid vt c s = [] ↔
      requiredString sid = true ∧ requiredString vt = true ∧
      enumValid violationTypes vt = true ∧ requiredNumber c = true ∧
      enumValid statuses s = true := by
  unfold validate
  cases requiredString sid <;> cases requiredString vt <;>
    cases enumValid violationTypes vt <;> cases requiredNumber c <;>
    cases enumValid statuses s <;> simp

theorem conforms_iff (a : Alert) :
    a.conforms = true ↔
      a.studentId ≠ "" ∧ a.violationType ∈ violationTypes ∧ a.status ∈ statuses := by
  unfold Alert.conforms
  rw [List.isEmpty_iff, validate_nil_iff]
  simp [requiredString, requiredNumber, enumValid]
  intro _ h1 _ h
  rw [h] at h1
  revert h1
  decide

theorem create_of_invalid (env : Env) (st : Store) (f : NewAlert)
    (h : validate (withDefault defaultStudentId f.studentId) f.violationType.toOption
      f.confidence.toOption (some defaultStatus) ≠ []) :
    Alert.create env st f = .error (.validation
      (validate (withDefault defaultStudentId f.studentId) f.violationType.toOption
        f.confidence.toOption (some defaultStatus))) := by
  unfold Alert.create
  simp only []
  split
  · rename_i heq
    exact absurd heq h
  · rfl

theorem create_of_valid (env : Env) (st : Store) (f : NewAlert) (sid vt : String) (conf : Num)
    (hsid : withDefault defaultStudentId f.studentId = some sid) (hsid0 : sid ≠ "")
    (hvt : f.violationType = .val vt) (hmem : vt ∈ violationTypes)
    (hconf : f.confidence = .val conf)
    (hup : env.storeUp = true) (hfresh : ∀ a ∈ st, a.id ≠ env.newId) :
    Alert.create env st f =
      .ok (⟨env.newId, sid, vt, conf, env.now, f.evidencePath, defaultStatus⟩,
        st ++ [⟨env.newId, sid, vt, conf, env.now, f.evidencePath, defaultStatus⟩]) := by
  have hval : validate (some sid) (some vt) (some conf) (some defaultStatus) = [] := by
    rw [validate_nil_iff]
    refine ⟨by simp [requiredString, hsid0], ?_, by simp [enumValid, hmem], rfl, by decide⟩
    have : vt ≠ "" := by
      intro h
      rw [h] at hmem
      revert hmem
      decide
    simp [requiredString, this]
  have hany : st.any (fun d => decide (d.id = env.newId)) = false := by
    rw [List.any_eq_false]
    intro a ha
    simpa using hfresh a ha
  unfold Alert.create
  simp only [hsid, hvt, hconf, Field.toOption, hval, hup, hany]
  simp

/-- C6 (create defaults), as amended.  When the database answers and the new
identifier is unused, a body whose `violationType` is in the enumeration, whose
`confidence` is present and whose `studentId` is missing or a non-empty string
is answered 201 with the inserted alert: its status is `pending`, its timestamp
is the clock reading taken during the call (so not earlier than any time before
it), its `studentId` is `Unknown` when the body has none; `status` and
`timestamp` fields of the body play no part. -/
theorem post_creates_pending_alert (env : Env) (st : Store) (body : Body)
    (vt : String) (conf : Num)
    (hup : env.storeUp = true) (hfresh : ∀ a ∈ st, a.id ≠ env.newId)
    (hvt : body.violationType = .val vt) (hmem : vt ∈ violationTypes)
    (hconf : body.confidence = .val conf)
    (hsid : body.studentId = .absent ∨ ∃ s, body.studentId = .val s ∧ s ≠ "") :
    ∃ a : Alert, postAlert env st body = (⟨201, .alert a⟩, st ++ [a]) ∧
      a.status = "pending" ∧ a.timestamp = env.now ∧
      (∀ before, before ≤ env.now → before ≤ a.timestamp) ∧
      (body.studentId = .absent → a.studentId = "Unknown") ∧
      (∀ s, body.studentId = .val s → a.studentId = s) ∧
      a.violationType = vt ∧ a.confidence = conf ∧ a.evidencePath = body.evidencePath ∧
      a.id = env.newId := by
  obtain ⟨sid, hsid1, hsid0, hsidA, hsidV⟩ : ∃ sid,
      withDefault defaultStudentId body.studentId = some sid ∧ sid ≠ "" ∧
      (body.studentId = .absent → sid = "Unknown") ∧
      (∀ s, body.studentId = .val s → sid = s) := by
    rcases hsid with h | ⟨s, h, hs⟩
    · refine ⟨"Unknown", by rw [h]; rfl, by decide, fun _ => rfl, ?_⟩
      intro s hs
      rw [h] at hs
      exact Field.noConfusion hs
    · refine ⟨s, by rw [h]; rfl, hs, ?_, ?_⟩
      · intro h2
        rw [h] at h2
        exact Field.noConfusion h2
      · intro s2 h2
        rw [h] at h2
        injection h2
  have hc := create_of_valid env st
    ⟨body.studentId, body.violationType, body.confidence, body.evidencePath⟩
    sid vt conf hsid1 hsid0 hvt hmem hconf hup hfresh
  refine ⟨⟨env.newId, sid, vt, conf, env.now, body.evidencePath, defaultStatus⟩, ?_,
    rfl, rfl, fun _ h => h, hsidA, hsidV, rfl, rfl, rfl, rfl⟩
  unfold postAlert
  rw [hc]

/-- Witness of C6: a body with a `status` and a `timestamp` field and no
`studentId`, posted to an empty store. -/
theorem post_creates_pending_alert_witness :
    ∃ a : Alert, postAlert ⟨1700000000000, 1, true⟩ []
        ⟨.absent, .val "Normal", .val ⟨42, -2⟩, .null, .val "verified", .val 5⟩ =
        (⟨201, .alert a⟩, [] ++ [a]) ∧ a.status = "pending" ∧ a.timestamp = 1700000000000 :=
  let ⟨a, h1, h2, h3, _⟩ := post_creates_pending_alert ⟨1700000000000, 1, true⟩ []
    ⟨.absent, .val "Normal", .val ⟨42, -2⟩, .null, .val "verified", .val 5⟩ "Normal" ⟨42, -2⟩
    rfl (by simp) rfl (by decide) rfl (Or.inl rfl)
  ⟨a, h1, h2, h3⟩

/-- C6 as stated fails: a body with a valid `violationType` and a `confidence`
whose `studentId` is the empty string (or `null`) is answered 400, and nothing
is inserted: `studentId` is a required path. -/
theorem post_empty_studentId_rejected :
    (postAlert ⟨1700000000000, 1, true⟩ []
        ⟨.val "", .val "Normal", .val ⟨42, -2⟩, .absent, .absent, .absent⟩).1.status = 400 ∧
    (postAlert ⟨1700000000000, 1, true⟩ []
        ⟨.val "", .val "Normal", .val ⟨42, -2⟩, .absent, .absent, .absent⟩).2 = [] ∧
    (postAlert ⟨1700000000000, 1, true⟩ []
        ⟨.null, .val "Normal", .val ⟨42, -2⟩, .absent, .absent, .absent⟩).1.status = 400 := by
  decide

/-- C7 (create rejects a bad violationType).  Whatever the store and the
environment, a body whose `violationType` is missing, `null` or a string outside
the enumeration makes `Alert.create` throw a ValidationError that names the path
`violationType`; the answer is 400 with the error's message and the store is
what it was. -/
theorem post_rejects_bad_violationType (env : Env) (st : Store) (body : Body)
    (hbad : ∀ vt, body.violationType = .val vt → vt ∉ violationTypes) :
    ∃ paths, "violationType" ∈ paths ∧
      Alert.create env st
        ⟨body.studentId, body.violationType, body.confidence, body.evidencePath⟩ =
          .error (.validation paths) ∧
      postAlert env st body = (⟨400, .message (Err.validation paths).message⟩, st) := by
  have hcond : (requiredString body.violationType.toOption &&
      enumValid violationTypes body.violationType.toOption) = false := by
    cases hv : body.violationType with
    | absent => rfl
    | null => rfl
    | val vt =>
      have := hbad vt hv
      simp [Field.toOption, enumValid, this]
  have hmem : "violationType" ∈
      validate (withDefault defaultStudentId body.studentId) body.violationType.toOption
        body.confidence.toOption (some defaultStatus) := by
    simp [validate, hcond]
  have hne : validate (withDefault defaultStudentId body.studentId)
      body.violationType.toOption body.confidence.toOption (some defaultStatus) ≠ [] :=
    List.ne_nil_of_mem hmem
  have hc := create_of_invalid env st
    ⟨body.studentId, body.violationType, body.confidence, body.evidencePath⟩ hne
  refine ⟨_, hmem, hc, ?_⟩
  unfold postAlert
  rw [hc]

/-- Witness of C7: a `violationType` outside the enumeration, posted to a store
that holds one alert. -/
theorem post_rejects_bad_violationType_witness :
    ∃ paths, "violationType" ∈ paths ∧
      Alert.create ⟨7, 2, true⟩ [⟨1, "s1", "Moving", ⟨5, -1⟩, 3, .absent, "pending"⟩]
        ⟨.val "s2", .val "Cheating", .val ⟨9, -1⟩, .absent⟩ = .error (.validation paths) ∧
      postAlert ⟨7, 2, true⟩ [⟨1, "s1", "Moving", ⟨5, -1⟩, 3, .absent, "pending"⟩]
        ⟨.val "s2", .val "Cheating", .val ⟨9, -1⟩, .absent, .absent, .absent⟩ =
        (⟨400, .message (Err.validation paths).message⟩,
          [⟨1, "s1", "Moving", ⟨5, -1⟩, 3, .absent, "pending"⟩]) :=
  post_rejects_bad_violationType ⟨7, 2, true⟩
    [⟨1, "s1", "Moving", ⟨5, -1⟩, 3, .absent, "pending"⟩]
    ⟨.val "s2", .val "Cheating", .val ⟨9, -1⟩, .absent, .absent, .absent⟩
    (by intro vt h; injection h with h; subst h; decide)

theorem findById_of_cast (env : Env) (st : Store) (id : String) (oid : ObjectId)
    (hid : castObjectId id = some oid) (hup : env.storeUp = true) :
    Alert.findById env st id = .ok (st.find? (fun d => d.id = oid)) := by
  simp [Alert.findById, hid, hup]

theorem findById_some_inv (env : Env) (st : Store) (id : String) (a : Alert)
    (h : Alert.findById env st id = .ok (some a)) :
    env.storeUp = true ∧ castObjectId id = some a.id ∧
      st.find? (fun d => d.id = a.id) = some a := by
  unfold Alert.findById at h
  cases hid : castObjectId id with
  | none => simp [hid] at h
  | some oid =>
    cases hup : env.storeUp with
    | false => simp [hid, hup] at h
    | true =>
      simp only [hid, hup, Bool.not_true, Bool.false_eq_true, if_false] at h
      have hfind : st.find? (fun d => decide (d.id = oid)) = some a := by
        injection h
      have hido : a.id = oid := by
        have := List.find?_some hfind
        simpa using this
      rw [hido]
      exact ⟨rfl, rfl, hfind⟩

theorem findById_unknown (env : Env) (st : Store) (id : String)
    (hunknown : ∀ a ∈ st, castObjectId id ≠ some a.id) (a : Alert) :
    Alert.findById env st id ≠ .ok (some a) := by
  intro h
  obtain ⟨_, hid, hfind⟩ := findById_some_inv env st id a h
  exact hunknown a (List.mem_of_find?_eq_some hfind) hid

theorem setStatus_of_find (st : Store) (oid : ObjectId) (a : Alert)
    (h : st.find? (fun d => d.id = oid) = some a) : setStatus st oid a.status = st := by
  induction st with
  | nil => rfl
  | cons d ds ih =>
    by_cases hd : d.id = oid
    · subst hd
      simp only [List.find?, decide_True] at h
      injection h with h
      subst h
      simp [setStatus]
    · simp only [List.find?, hd, decide_False] at h
      simp [setStatus, hd, ih h]

theorem find_setStatus (st : Store) (oid : ObjectId) (s : String) :
    (setStatus st oid s).find? (fun d => d.id = oid) =
      (st.find? (fun d => d.id = oid)).map (fun d => { d with status := s }) := by
  induction st with
  | nil => rfl
  | cons d ds ih =>
    by_cases hd : d.id = oid
    · simp [setStatus, hd, List.find?]
    · simp [setStatus, hd, List.find?, ih]

theorem sameButStatus_refl (oid : Option ObjectId) (st : Store) :
    List.Forall₂ (sameButStatus oid) st st := by
  induction st with
  | nil => exact List.Forall₂.nil
  | cons d ds ih => exact List.Forall₂.cons ⟨rfl, rfl, rfl, rfl, rfl, rfl, fun _ => rfl⟩ ih

theorem setStatus_frame (st : Store) (oid : ObjectId) (s : String) :
    List.Forall₂ (sameButStatus (some oid)) st (setStatus st oid s) := by
  induction st with
  | nil => exact List.Forall₂.nil
  | cons d ds ih =>
    by_cases hd : d.id = oid
    · subst hd
      simp only [setStatus, if_true]
      refine List.Forall₂.cons ⟨rfl, rfl, rfl, rfl, rfl, rfl, ?_⟩ (sameButStatus_refl _ ds)
      intro h
      exact absurd rfl h
    · simp only [setStatus, hd, if_false]
      exact List.Forall₂.cons ⟨rfl, rfl, rfl, rfl, rfl, rfl, fun _ => rfl⟩ ih

theorem save_of_conforms (env : Env) (st : Store) (a : Alert) (hc : a.conforms = true)
    (hup : env.storeUp = true) :
    Alert.save env st a = .ok (a, setStatus st a.id a.status) := by
  unfold Alert.conforms at hc
  rw [List.isEmpty_iff] at hc
  simp [Alert.save, hc, hup]

theorem save_of_not_conforms (env : Env) (st : Store) (a : Alert) (hc : a.conforms = false) :
    Alert.save env st a = .error (.validation
      (validate (some a.studentId) (some a.violationType) (some a.confidence)
        (some a.status))) := by
  unfold Alert.conforms at hc
  unfold Alert.save
  split
  · rename_i heq
    rw [heq] at hc
    exact absurd hc (by decide)
  · rfl

theorem save_store (env : Env) (st : Store) (a : Alert) (r : Alert × Store)
    (h : Alert.save env st a = .ok r) : r = (a, setStatus st a.id a.status) := by
  unfold Alert.save at h
  split at h
  · cases hup : env.storeUp with
    | false => simp [hup] at h
    | true =>
      simp only [hup, Bool.not_true, Bool.false_eq_true, if_false] at h
      injection h with h
      exact h.symm
  · exact Except.noConfusion h

theorem put_of_found (env : Env) (st : Store) (id : String) (body : Body) (a : Alert)
    (hfind : Alert.findById env st id = .ok (some a))
    (hc : Alert.conforms { a with status := orElse body.status a.status } = true) :
    putAlert env st id body =
      (⟨200, .alert { a with status := orElse body.status a.status }⟩,
        setStatus st a.id (orElse body.status a.status)) := by
  have hup := (findById_some_inv env st id a hfind).1
  unfold putAlert
  rw [hfind]
  simp only []
  rw [save_of_conforms env st _ hc hup]

theorem put_of_found_invalid (env : Env) (st : Store) (id : String) (body : Body) (a : Alert)
    (hfind : Alert.findById env st id = .ok (some a))
    (hc : Alert.conforms { a with status := orElse body.status a.status } = false) :
    (putAlert env st id body).1.status = 500 ∧ (putAlert env st id body).2 = st := by
  unfold putAlert
  rw [hfind]
  simp only []
  rw [save_of_not_conforms env st _ hc]
  exact ⟨rfl, rfl⟩

theorem put_absent (env : Env) (st : Store) (id : String) (body : Body) (a : Alert)
    (hfind : Alert.findById env st id = .ok (some a)) (hconf : a.conforms = true)
    (hbody : body.status = .absent) :
    putAlert env st id body = (⟨200, .alert a⟩, st) := by
  have horelse : orElse body.status a.status = a.status := by rw [hbody]; rfl
  have hsame : ({ a with status := orElse body.status a.status } : Alert) = a := by
    rw [horelse]
  have h := put_of_found env st id body a hfind (by rw [hsame]; exact hconf)
  rw [h, hsame, horelse]
  rw [setStatus_of_find st a.id a (findById_some_inv env st id a hfind).2.2]

theorem put_store (env : Env) (st : Store) (id : String) (body : Body) :
    (putAlert env st id body).2 = st ∨
      ∃ (a : Alert) (s : String), castObjectId id = some a.id ∧
        (putAlert env st id body).2 = setStatus st a.id s := by
  unfold putAlert
  cases hfind : Alert.findById env st id with
  | error e => exact Or.inl rfl
  | ok found =>
    cases found with
    | none => exact Or.inl rfl
    | some a =>
      simp only []
      cases hsave : Alert.save env st { a with status := orElse body.status a.status } with
      | error e => exact Or.inl rfl
      | ok r =>
        have hr := save_store env st _ r hsave
        subst hr
        exact Or.inr ⟨a, _, (findById_some_inv env st id a hfind).2.1, rfl⟩

theorem conforms_with_status (a : Alert) (s : String) (hconf : a.conforms = true)
    (hs : s ∈ statuses) : Alert.conforms { a with status := s } = true := by
  rw [conforms_iff] at hconf ⊢
  exact ⟨hconf.1, hconf.2.1, hs⟩

theorem put_with_status (env : Env) (st : Store) (id : String) (body : Body) (a : Alert)
    (s : String) (hfind : Alert.findById env st id = .ok (some a)) (hconf : a.conforms = true)
    (hs : s ∈ statuses) (hbody : body.status = .val s) :
    putAlert env st id body = (⟨200, .alert { a with status := s }⟩, setStatus st a.id s) ∧
    Alert.findById env (setStatus st a.id s) id = .ok (some { a with status := s }) := by
  have hne : s ≠ "" := by
    intro h
    rw [h] at hs
    revert hs
    decide
  have horelse : orElse body.status a.status = s := by
    rw [hbody]
    simp [orElse, truthy, hne]
  obtain ⟨hup, hid, hf⟩ := findById_some_inv env st id a hfind
  constructor
  · have h := put_of_found env st id body a hfind
      (by rw [horelse]; exact conforms_with_status a s hconf hs)
    rw [h, horelse]
  · rw [findById_of_cast env _ id a.id hid hup, find_setStatus, hf]
    rfl

theorem findById_env (env env' : Env) (st : Store) (id : String) (a : Alert)
    (hfind : Alert.findById env st id = .ok (some a)) (hup : env'.storeUp = true) :
    Alert.findById env' st id = .ok (some a) := by
  obtain ⟨_, hid, hf⟩ := findById_some_inv env st id a hfind
  rw [findById_of_cast env' st id a.id hid hup, hf]

/-- C3 (an omitted status is a no-op).  When `findById` finds the alert `a` for
`id` and `a` is a document the schema accepts, a PUT whose body has no `status`
is answered 200 with `a` itself and leaves the store as it was.  In particular
an earlier PUT with status `verified` (served while the database answers) is
answered 200, and the PUT without a status that follows it answers 200 with the
alert in status `verified`, which is what the store then holds. -/
theorem put_without_status_keeps_status (env : Env) (st : Store) (id : String) (body : Body)
    (a : Alert) (hfind : Alert.findById env st id = .ok (some a))
    (hconf : a.conforms = true) (hbody : body.status = .absent) :
    putAlert env st id body = (⟨200, .alert a⟩, st) ∧
    (∀ (env1 : Env) (first : Body), env1.storeUp = true → first.status = .val "verified" →
      (putAlert env1 st id first).1.status = 200 ∧
      putAlert env (putAlert env1 st id first).2 id body =
        (⟨200, .alert { a with status := "verified" }⟩, (putAlert env1 st id first).2) ∧
      Alert.findById env (putAlert env (putAlert env1 st id first).2 id body).2 id =
        .ok (some { a with status := "verified" })) := by
  refine ⟨put_absent env st id body a hfind hconf hbody, ?_⟩
  intro env1 first hup1 hfirst
  have hv : "verified" ∈ statuses := by decide
  have hup := (findById_some_inv env st id a hfind).1
  have hfind1 := findById_env env env1 st id a hfind hup1
  obtain ⟨hput, hfound1⟩ := put_with_status env1 st id first a "verified" hfind1 hconf hv hfirst
  have hfound := findById_env env1 env _ id _ hfound1 hup
  have hsecond := put_absent env (setStatus st a.id "verified") id body
    { a with status := "verified" } hfound (conforms_with_status a _ hconf hv) hbody
  rw [hput]
  refine ⟨rfl, hsecond, ?_⟩
  show Alert.findById env (putAlert env (setStatus st a.id "verified") id body).2 id = _
  rw [hsecond]
  exact hfound

/-- Witness of C3: a stored pending alert with `_id` 10, addressed by the
24-digit text of its identifier. -/
theorem put_without_status_keeps_status_witness :
    putAlert ⟨9, 2, true⟩ [⟨10, "s1", "Moving", ⟨5, -1⟩, 3, .absent, "pending"⟩]
      "00000000000000000000000a" ⟨.absent, .absent, .absent, .absent, .absent, .absent⟩ =
      (⟨200, .alert ⟨10, "s1", "Moving", ⟨5, -1⟩, 3, .absent, "pending"⟩⟩,
        [⟨10, "s1", "Moving", ⟨5, -1⟩, 3, .absent, "pending"⟩]) :=
  (put_without_status_keeps_status ⟨9, 2, true⟩
    [⟨10, "s1", "Moving", ⟨5, -1⟩, 3, .absent, "pending"⟩] "00000000000000000000000a"
    ⟨.absent, .absent, .absent, .absent, .absent, .absent⟩
    ⟨10, "s1", "Moving", ⟨5, -1⟩, 3, .absent, "pending"⟩ (by rfl) (by decide) rfl).1

/-- C4 as stated fails: the text `xyz` identifies no stored alert, yet the PUT
is answered 500, not 404, because `findById` cannot cast it to an ObjectId. -/
theorem put_malformed_id_answers_500 :
    (∀ a ∈ [(⟨10, "s1", "Moving", ⟨5, -1⟩, 3, .absent, "pending"⟩ : Alert)],
      castObjectId "xyz" ≠ some a.id) ∧
    (putAlert ⟨9, 2, true⟩ [⟨10, "s1", "Moving", ⟨5, -1⟩, 3, .absent, "pending"⟩] "xyz"
      ⟨.absent, .absent, .absent, .absent, .val "verified", .absent⟩).1.status = 500 := by
  decide

/-- C4 (unknown id), as amended.  For an id that identifies no stored alert the
store is left exactly as it was, whatever the body.  If the id is well formed
(24 hexadecimal digits) and the database answers, the answer is 404 with the
message `Alert not found`; if the id is malformed or the database does not
answer, the answer is 500. -/
theorem put_unknown_id (env : Env) (st : Store) (id : String) (body : Body)
    (hunknown : ∀ a ∈ st, castObjectId id ≠ some a.id) :
    (putAlert env st id body).2 = st ∧
    ((castObjectId id).isSome = true → env.storeUp = true →
      putAlert env st id body = (⟨404, .message "Alert not found"⟩, st)) ∧
    ((castObjectId id = none ∨ env.storeUp = false) →
      (putAlert env st id body).1.status = 500) := by
  have hres : ∀ found, Alert.findById env st id = .ok found → found = none := by
    intro found h
    cases found with
    | none => rfl
    | some a => exact absurd h (findById_unknown env st id hunknown a)
  refine ⟨?_, ?_, ?_⟩
  · unfold putAlert
    cases hfind : Alert.findById env st id with
    | error e => rfl
    | ok found =>
      have := hres found hfind
      subst this
      rfl
  · intro hsome hup
    obtain ⟨oid, hoid⟩ := Option.isSome_iff_exists.mp hsome
    have hfind := findById_of_cast env st id oid hoid hup
    have hnone := hres _ hfind
    unfold putAlert
    rw [hfind, hnone]
  · intro h
    have hfind : ∃ e, Alert.findById env st id = .error e := by
      unfold Alert.findById
      rcases h with h | h
      · exact ⟨_, by rw [h]⟩
      · cases hc : castObjectId id with
        | none => exact ⟨_, rfl⟩
        | some oid => exact ⟨.store "database unavailable", by simp [h]⟩
    obtain ⟨e, he⟩ := hfind
    unfold putAlert
    rw [he]

/-- Witness of C4: a well-formed id that no stored alert has. -/
theorem put_unknown_id_witness :
    putAlert ⟨9, 2, true⟩ [⟨10, "s1", "Moving", ⟨5, -1⟩, 3, .absent, "pending"⟩]
      "00000000000000000000000b" ⟨.absent, .absent, .absent, .absent, .val "verified", .absent⟩ =
      (⟨404, .message "Alert not found"⟩,
        [⟨10, "s1", "Moving", ⟨5, -1⟩, 3, .absent, "pending"⟩]) :=
  (put_unknown_id ⟨9, 2, true⟩ [⟨10, "s1", "Moving", ⟨5, -1⟩, 3, .absent, "pending"⟩]
    "00000000000000000000000b" ⟨.absent, .absent, .absent, .absent, .val "verified", .absent⟩
    (by decide)).2.1 (by decide) rfl

/-- C9 (status is the only mutable field).  After any PUT the store holds the
same documents in the same places: each has the `_id`, `studentId`,
`violationType`, `confidence`, `timestamp` and `evidencePath` it had, and each
document other than the one the id identifies is unchanged.  Any status may
follow any status: for a found alert the schema accepts and any member `s` of
the status enumeration, a PUT with status `s` is answered 200 and the store then
holds that alert with status `s`. -/
theorem put_changes_status_only (env : Env) (st : Store) (id : String) (body : Body) :
    List.Forall₂ (sameButStatus (castObjectId id)) st (putAlert env st id body).2 ∧
    (∀ (a : Alert) (s : String), Alert.findById env st id = .ok (some a) →
      a.conforms = true → s ∈ statuses → body.status = .val s →
      putAlert env st id body = (⟨200, .alert { a with status := s }⟩, setStatus st a.id s) ∧
      Alert.findById env (putAlert env st id body).2 id =
        .ok (some { a with status := s })) := by
  constructor
  · rcases put_store env st id body with h | ⟨a, s, hid, h⟩
    · rw [h]
      exact sameButStatus_refl _ st
    · rw [h, hid]
      exact setStatus_frame st a.id s
  · intro a s hfind hconf hs hbody
    obtain ⟨hput, hfound⟩ := put_with_status env st id body a s hfind hconf hs hbody
    refine ⟨hput, ?_⟩
    rw [hput]
    exact hfound

/-- Witness of C9: a verified alert is set back to pending. -/
theorem put_changes_status_only_witness :
    putAlert ⟨9, 2, true⟩ [⟨10, "s1", "Moving", ⟨5, -1⟩, 3, .absent, "verified"⟩]
      "00000000000000000000000a" ⟨.absent, .absent, .absent, .absent, .val "pending", .absent⟩ =
      (⟨200, .alert ⟨10, "s1", "Moving", ⟨5, -1⟩, 3, .absent, "pending"⟩⟩,
        setStatus [⟨10, "s1", "Moving", ⟨5, -1⟩, 3, .absent, "verified"⟩] 10 "pending") :=
  ((put_changes_status_only ⟨9, 2, true⟩
    [⟨10, "s1", "Moving", ⟨5, -1⟩, 3, .absent, "verified"⟩] "00000000000000000000000a"
    ⟨.absent, .absent, .absent, .absent, .val "pending", .absent⟩).2
    ⟨10, "s1", "Moving", ⟨5, -1⟩, 3, .absent, "verified"⟩ "pending"
    (by rfl) (by decide) (by decide) rfl).1

theorem sort_newest_first (l : List Alert) :
    (l.insertionSort newerFirst).Perm l ∧
    (l.insertionSort newerFirst).Pairwise (fun a b => b.timestamp ≤ a.timestamp) ∧
    ((l.map (fun a => a.timestamp)).Nodup →
      (l.insertionSort newerFirst).Pairwise (fun a b => b.timestamp < a.timestamp)) := by
  haveI : IsTotal Alert newerFirst := ⟨fun a b => Nat.le_total b.timestamp a.timestamp⟩
  haveI : IsTrans Alert newerFirst := ⟨fun a b c hab hbc => Nat.le_trans hbc hab⟩
  have hperm := List.perm_insertionSort newerFirst l
  have hsorted : (l.insertionSort newerFirst).Pairwise
      (fun a b => b.timestamp ≤ a.timestamp) := List.sorted_insertionSort newerFirst l
  refine ⟨hperm, hsorted, ?_⟩
  intro hnodup
  have hnd : ((l.insertionSort newerFirst).map (fun a => a.timestamp)).Nodup :=
    ((hperm.map _).nodup_iff).mpr hnodup
  have hne : (l.insertionSort newerFirst).Pairwise
      (fun a b => a.timestamp ≠ b.timestamp) := by
    unfold List.Nodup at hnd
    rw [List.pairwise_map] at hnd
    exact hnd
  exact (hsorted.and hne).imp (fun h => lt_of_le_of_ne h.1 (Ne.symm h.2))

/-- C5 as stated fails: two alerts created at the same clock reading are both
pending and have the same timestamp, so the list GET returns for
`status=pending` is not strictly descending. -/
theorem get_equal_timestamps_not_strict :
    ¬ ((getAlerts ⟨8, 3, true⟩
        (postAlert ⟨5, 2, true⟩
          (postAlert ⟨5, 1, true⟩ []
            ⟨.absent, .val "Moving", .val ⟨5, -1⟩, .absent, .absent, .absent⟩).2
          ⟨.absent, .val "Normal", .val ⟨7, -1⟩, .absent, .absent, .absent⟩).2
        ⟨some "pending", none⟩).1.alerts).Pairwise
      (fun a b => b.timestamp < a.timestamp) := by
  decide

/-- C5 (filtered find), as amended.  When the database answers, GET with
`status=pending` is answered 200 with a list holding exactly the stored alerts
whose status is `pending`, each as often as it is stored, ordered by timestamp
descending with ties allowed: no alert is followed by one with a greater
timestamp.  The order is strictly descending when the listed timestamps are
pairwise distinct.  With no status filter the same holds of all stored alerts.
The store is not changed. -/
theorem get_lists_newest_first (env : Env) (st : Store) (limit : Option String)
    (hup : env.storeUp = true) :
    (∃ l, getAlerts env st ⟨some "pending", limit⟩ = (⟨200, .alerts l⟩, st) ∧
      l.Perm (st.filter (fun a => a.status = "pending")) ∧
      l.Pairwise (fun a b => b.timestamp ≤ a.timestamp) ∧
      (((st.filter (fun a => a.status = "pending")).map (fun a => a.timestamp)).Nodup →
        l.Pairwise (fun a b => b.timestamp < a.timestamp))) ∧
    (∃ l, getAlerts env st ⟨none, limit⟩ = (⟨200, .alerts l⟩, st) ∧
      l.Perm st ∧
      l.Pairwise (fun a b => b.timestamp ≤ a.timestamp) ∧
      ((st.map (fun a => a.timestamp)).Nodup →
        l.Pairwise (fun a b => b.timestamp < a.timestamp))) := by
  constructor
  · refine ⟨_, ?_, sort_newest_first (st.filter (fun a => a.status = "pending"))⟩
    have hq : queryFilter ⟨some "pending", limit⟩ = some "pending" := by
      simp [queryFilter, truthy]
    simp [getAlerts, hq, Alert.find, hup]
  · refine ⟨_, ?_, sort_newest_first st⟩
    have hq : queryFilter ⟨none, limit⟩ = none := rfl
    simp [getAlerts, hq, Alert.find, hup]

/-- Witness of C5: a store with a pending and a verified alert. -/
theorem get_lists_newest_first_witness :
    ∃ l, getAlerts ⟨9, 3, true⟩
        [⟨1, "s1", "Moving", ⟨5, -1⟩, 3, .absent, "pending"⟩,
         ⟨2, "s2", "Normal", ⟨7, -1⟩, 4, .absent, "verified"⟩] ⟨none, some "10"⟩ =
        (⟨200, .alerts l⟩,
          [⟨1, "s1", "Moving", ⟨5, -1⟩, 3, .absent, "pending"⟩,
           ⟨2, "s2", "Normal", ⟨7, -1⟩, 4, .absent, "verified"⟩]) ∧
      l.Perm [⟨1, "s1", "Moving", ⟨5, -1⟩, 3, .absent, "pending"⟩,
         ⟨2, "s2", "Normal", ⟨7, -1⟩, 4, .absent, "verified"⟩] ∧
      l.Pairwise (fun a b => b.timestamp ≤ a.timestamp) :=
  let ⟨l, h1, h2, h3, _⟩ := (get_lists_newest_first ⟨9, 3, true⟩
    [⟨1, "s1", "Moving", ⟨5, -1⟩, 3, .absent, "pending"⟩,
     ⟨2, "s2", "Normal", ⟨7, -1⟩, 4, .absent, "verified"⟩] (some "10") rfl).2
  ⟨l, h1, h2, h3⟩

theorem create_store_down (env : Env) (st : Store) (f : NewAlert)
    (hvalid : validate (withDefault defaultStudentId f.studentId) f.violationType.toOption
      f.confidence.toOption (some defaultStatus) = [])
    (hdown : env.storeUp = false) :
    Alert.create env st f = .error (.store "database unavailable") := by
  obtain ⟨h1, h2, _, h4, _⟩ := (validate_nil_iff _ _ _ _).mp hvalid
  cases hs : withDefault defaultStudentId f.studentId with
  | none => rw [hs] at h1; exact absurd h1 (by decide)
  | some sid =>
    cases hv : f.violationType.toOption with
    | none => rw [hv] at h2; exact absurd h2 (by decide)
    | some vt =>
      cases hc : f.confidence.toOption with
      | none => rw [hc] at h4; exact absurd h4 (by decide)
      | some conf =>
        rw [hs, hv, hc] at hvalid
        unfold Alert.create
        simp only [hs, hv, hc, hvalid, hdown]
        rfl

theorem not_conforms_of_bad_status (a : Alert) (s : String) (hs : s ∉ statuses) :
    Alert.conforms { a with status := s } = false := by
  cases h : Alert.conforms { a with status := s } with
  | false => rfl
  | true => exact absurd ((conforms_iff _).mp h).2.2 hs

/-- C8 as stated fails twice.  A PUT with a provided status outside the
enumeration makes `save` throw a ValidationError, and the answer is 500, not
400; a POST of a valid body while the database does not answer makes `create`
throw a store error, and the answer is 400, not 500. -/
theorem status_not_fixed_by_error_class :
    Alert.save ⟨9, 2, true⟩ [⟨10, "s1", "Moving", ⟨5, -1⟩, 3, .absent, "pending"⟩]
      ⟨10, "s1", "Moving", ⟨5, -1⟩, 3, .absent, "bogus"⟩ = .error (.validation ["status"]) ∧
    (putAlert ⟨9, 2, true⟩ [⟨10, "s1", "Moving", ⟨5, -1⟩, 3, .absent, "pending"⟩]
      "00000000000000000000000a"
      ⟨.absent, .absent, .absent, .absent, .val "bogus", .absent⟩).1.status = 500 ∧
    Alert.create ⟨9, 2, false⟩ [] ⟨.absent, .val "Normal", .val ⟨42, -2⟩, .absent⟩ =
      .error (.store "database unavailable") ∧
    (postAlert ⟨9, 2, false⟩ []
      ⟨.absent, .val "Normal", .val ⟨42, -2⟩, .absent, .absent, .absent⟩).1.status = 400 :=
  ⟨rfl, by decide, rfl, by decide⟩

/-- C8 (failure status), as amended.  The status of a failure is fixed by the
operation, not by the class of the error.  Every error `create` throws is
answered 400 by POST; every error `find`, `findById`, `save` or `deleteMany`
throws is answered 500 by GET, PUT and DELETE; PUT answers 404 when `findById`
finds nothing.  In particular a PUT with a provided status outside the
enumeration fails validation and is answered 500 with the store unchanged, and
a POST of a body the schema accepts is answered 400 when the database does not
answer.  POST answers 201 or 400, GET and DELETE 200 or 500, PUT 200, 404 or
500, and nothing else. -/
theorem failure_status_fixed_by_operation (env : Env) (st : Store) :
    (∀ (body : Body) (e : Err),
      Alert.create env st
        ⟨body.studentId, body.violationType, body.confidence, body.evidencePath⟩ = .error e →
      postAlert env st body = (⟨400, .message e.message⟩, st)) ∧
    (∀ (query : Query) (e : Err), Alert.find env st (queryFilter query) = .error e →
      getAlerts env st query = (⟨500, .message e.message⟩, st)) ∧
    (∀ (id : String) (body : Body) (e : Err), Alert.findById env st id = .error e →
      putAlert env st id body = (⟨500, .message e.message⟩, st)) ∧
    (∀ (id : String) (body : Body), Alert.findById env st id = .ok none →
      putAlert env st id body = (⟨404, .message "Alert not found"⟩, st)) ∧
    (∀ (id : String) (body : Body) (a : Alert) (e : Err),
      Alert.findById env st id = .ok (some a) →
      Alert.save env st { a with status := orElse body.status a.status } = .error e →
      putAlert env st id body = (⟨500, .message e.message⟩, st)) ∧
    (∀ e : Err, Alert.deleteMany env st = .error e →
      deleteAlerts env st = (⟨500, .message e.message⟩, st)) ∧
    (∀ (id : String) (body : Body) (a : Alert) (s : String),
      Alert.findById env st id = .ok (some a) → body.status = .val s → s ≠ "" →
      s ∉ statuses →
      (∃ paths, Alert.save env st { a with status := s } = .error (.validation paths)) ∧
      (putAlert env st id body).1.status = 500 ∧ (putAlert env st id body).2 = st) ∧
    (∀ body : Body, env.storeUp = false →
      validate (withDefault defaultStudentId body.studentId) body.violationType.toOption
        body.confidence.toOption (some defaultStatus) = [] →
      postAlert env st body = (⟨400, .message "database unavailable"⟩, st)) ∧
    (∀ body : Body, (postAlert env st body).1.status = 201 ∨
      (postAlert env st body).1.status = 400) ∧
    (∀ query : Query, (getAlerts env st query).1.status = 200 ∨
      (getAlerts env st query).1.status = 500) ∧
    (∀ (id : String) (body : Body), (putAlert env st id body).1.status = 200 ∨
      (putAlert env st id body).1.status = 404 ∨ (putAlert env st id body).1.status = 500) ∧
    ((deleteAlerts env st).1.status = 200 ∨ (deleteAlerts env st).1.status = 500) := by
  refine ⟨?_, ?_, ?_, ?_, ?_, ?_, ?_, ?_, ?_, ?_, ?_, ?_⟩
  · intro body e h
    unfold postAlert
    rw [h]
  · intro query e h
    unfold getAlerts
    rw [h]
  · intro id body e h
    unfold putAlert
    rw [h]
  · intro id body h
    unfold putAlert
    rw [h]
  · intro id body a e hfind hsave
    unfold putAlert
    rw [hfind]
    simp only []
    rw [hsave]
  · intro e h
    unfold deleteAlerts
    rw [h]
  · intro id body a s hfind hbody hne hs
    have horelse : orElse body.status a.status = s := by
      rw [hbody]
      simp [orElse, truthy, hne]
    have hbad := not_conforms_of_bad_status a s hs
    refine ⟨⟨_, save_of_not_conforms env st _ hbad⟩, ?_⟩
    exact put_of_found_invalid env st id body a hfind (by rw [horelse]; exact hbad)
  · intro body hdown hvalid
    have h := create_store_down env st
      ⟨body.studentId, body.violationType, body.confidence, body.evidencePath⟩ hvalid hdown
    unfold postAlert
    rw [h]
    rfl
  · intro body
    unfold postAlert
    cases Alert.create env st
        ⟨body.studentId, body.violationType, body.confidence, body.evidencePath⟩ with
    | error e => exact Or.inr rfl
    | ok r => exact Or.inl rfl
  · intro query
    unfold getAlerts
    cases Alert.find env st (queryFilter query) with
    | error e => exact Or.inr rfl
    | ok r => exact Or.inl rfl
  · intro id body
    unfold putAlert
    cases Alert.findById env st id with
    | error e => exact Or.inr (Or.inr rfl)
    | ok found =>
      cases found with
      | none => exact Or.inr (Or.inl rfl)
      | some a =>
        simp only []
        cases Alert.save env st { a with status := orElse body.status a.status } with
        | error e => exact Or.inr (Or.inr rfl)
        | ok r => exact Or.inl rfl
  · unfold deleteAlerts
    cases Alert.deleteMany env st with
    | error e => exact Or.inr rfl
    | ok r => exact Or.inl rfl

/-- Witness of C8: a PUT with the status `bogus` on a stored alert. -/
theorem failure_status_fixed_by_operation_witness :
    (putAlert ⟨9, 2, true⟩ [⟨10, "s1", "Moving", ⟨5, -1⟩, 3, .absent, "pending"⟩]
      "00000000000000000000000a"
      ⟨.absent, .absent, .absent, .absent, .val "bogus", .absent⟩).2 =
      [⟨10, "s1", "Moving", ⟨5, -1⟩, 3, .absent, "pending"⟩] :=
  ((failure_status_fixed_by_operation ⟨9, 2, true⟩
    [⟨10, "s1", "Moving", ⟨5, -1⟩, 3, .absent, "pending"⟩]).2.2.2.2.2.2.1
    "00000000000000000000000a" ⟨.absent, .absent, .absent, .absent, .val "bogus", .absent⟩
    ⟨10, "s1", "Moving", ⟨5, -1⟩, 3, .absent, "pending"⟩ "bogus"
    (by rfl) rfl (by decide) (by decide)).2.2

/-! ### Schema conformance is an invariant of the store

The hypothesis `a.conforms = true` used above holds of every document of a
store that was only ever written by the four handlers. -/

theorem create_conforms (env : Env) (st : Store) (f : NewAlert) (a : Alert) (st' : Store)
    (h : Alert.create env st f = .ok (a, st')) : a.conforms = true ∧ st' = st ++ [a] := by
  unfold Alert.create at h
  simp only [] at h
  split at h
  · rename_i sid vt conf hs hv hc hval
    cases hup : env.storeUp with
    | false => simp [hup] at h
    | true =>
      by_cases hany : st.any (fun d => decide (d.id = env.newId)) = true
      · simp [hup, hany] at h
      · simp only [hup, Bool.not_true, Bool.false_eq_true, if_false, hany] at h
        injection h with h
        injection h with h1 h2
        subst h1
        refine ⟨?_, h2.symm⟩
        unfold Alert.conforms
        rw [List.isEmpty_iff]
        rw [hs, hv, hc] at hval
        exact hval
  · exact Except.noConfusion h

theorem save_conforms (env : Env) (st : Store) (a : Alert) (r : Alert × Store)
    (h : Alert.save env st a = .ok r) : a.conforms = true := by
  cases hc : a.conforms with
  | true => rfl
  | false =>
    rw [save_of_not_conforms env st a hc] at h
    exact Except.noConfusion h

theorem mem_setStatus (st : Store) (oid : ObjectId) (s : String) (x : Alert)
    (hx : x ∈ setStatus st oid s) : x ∈ st ∨ ∃ d ∈ st, x = { d with status := s } := by
  induction st with
  | nil => simp [setStatus] at hx
  | cons d ds ih =>
    by_cases hd : d.id = oid
    · subst hd
      simp only [setStatus, if_true, List.mem_cons] at hx
      rcases hx with hx | hx
      · exact Or.inr ⟨d, List.mem_cons_self _ _, hx⟩
      · exact Or.inl (List.mem_cons_of_mem _ hx)
    · simp only [setStatus, hd, if_false, List.mem_cons] at hx
      rcases hx with hx | hx
      · exact Or.inl (hx ▸ List.mem_cons_self _ _)
      · rcases ih hx with h | ⟨e, he, h⟩
        · exact Or.inl (List.mem_cons_of_mem _ h)
        · exact Or.inr ⟨e, List.mem_cons_of_mem _ he, h⟩

theorem post_preserves_conforms (env : Env) (st : Store) (body : Body)
    (h : ∀ a ∈ st, a.conforms = true) : ∀ a ∈ (postAlert env st body).2, a.conforms = true := by
  unfold postAlert
  cases hc : Alert.create env st
      ⟨body.studentId, body.violationType, body.confidence, body.evidencePath⟩ with
  | error e => exact h
  | ok r =>
    obtain ⟨alert, st'⟩ := r
    obtain ⟨hconf, hst⟩ := create_conforms env st _ alert st' hc
    intro a ha
    simp only [hst, List.mem_append, List.mem_singleton] at ha
    rcases ha with ha | ha
    · exact h a ha
    · rw [ha]; exact hconf

theorem put_preserves_conforms (env : Env) (st : Store) (id : String) (body : Body)
    (h : ∀ a ∈ st, a.conforms = true) :
    ∀ a ∈ (putAlert env st id body).2, a.conforms = true := by
  unfold putAlert
  cases hfind : Alert.findById env st id with
  | error e => exact h
  | ok found =>
    cases found with
    | none => exact h
    | some alert =>
      simp only []
      cases hsave : Alert.save env st
          { alert with status := orElse body.status alert.status } with
      | error e => exact h
      | ok r =>
        have hr := save_store env st _ r hsave
        have hconf := save_conforms env st _ r hsave
        subst hr
        intro a ha
        rcases mem_setStatus st _ _ a ha with ha | ⟨d, hd, ha⟩
        · exact h a ha
        · rw [ha]
          exact conforms_with_status d _ (h d hd) ((conforms_iff _).mp hconf).2.2

theorem delete_preserves_conforms (env : Env) (st : Store)
    (h : ∀ a ∈ st, a.conforms = true) : ∀ a ∈ (deleteAlerts env st).2, a.conforms = true := by
  unfold deleteAlerts Alert.deleteMany
  cases env.storeUp with
  | false => exact h
  | true =>
    intro a ha
    simp at ha

end Api

end Invigilens
